import Mathlib

/-!
Verification of the cassette WebAssembly loader and benchmark harness
(C++ sources `loaders/cpp/src/cassette_loader.cpp` and
`benchmarks/cpp/benchmark.cpp`).

The embedding models the host-side state and string processing directly:

* JSON values are the inductive `Json`; the external `nlohmann::json::parse`
  is a parameter `parse : String → Option Json` of every operation that
  parses (the repository treats the parser as an opaque library), and
  `parse0` is a concrete table used for concrete scenarios.
* `EventTracker`'s `std::unordered_set<std::string>` is a `List String`
  without duplicates by construction of the insert.
* The guest module is opaque to the loader; a call's observable outcome
  (no i32 result, null pointer, or a decoded reply string) is the
  inductive `SendOutcome` / `CallOutcome` handed to the modelled host code.
* Guest linear memory is a `List Nat` of bytes; `MemoryManager.read_string`
  models the MSGB / null-terminated reader over it.
* C++ exceptions are `Except String`.
-/

set_option maxHeartbeats 1000000
set_option linter.unusedVariables false

/-- JSON values as the loader observes them through nlohmann::json
(numbers restricted to integers: every number the loader inspects is one). -/
inductive Json where
  | null : Json
  | boolean (b : Bool) : Json
  | num (n : Int) : Json
  | str (s : String) : Json
  | arr (elements : List Json) : Json
  | obj (fields : List (String × Json)) : Json

/-- nlohmann `is_array()`. -/
def Json.isArray : Json → Bool
  | .arr _ => true
  | _ => false

/-- nlohmann `is_object()`. -/
def Json.isObject : Json → Bool
  | .obj _ => true
  | _ => false

/-- nlohmann `size()`: 0 for null, element count for arrays/objects, 1 otherwise. -/
def Json.size : Json → Nat
  | .null => 0
  | .arr xs => xs.length
  | .obj fs => fs.length
  | _ => 1

/-- The element list of an array value (empty for anything else). -/
def Json.elems : Json → List Json
  | .arr xs => xs
  | _ => []

/-- `j[i]` on an array: the element at `i`, null when out of range (nlohmann
fills a non-const array with nulls up to `i`, and every call site only
compares the result or has bounds-checked `i`). -/
def Json.elem (j : Json) (i : Nat) : Json :=
  j.elems.getD i Json.null

/-- nlohmann's heterogeneous `json == "tag"` comparison: true exactly for the
equal string value. -/
def Json.eqStr : Json → String → Bool
  | .str s, t => s == t
  | _, _ => false

/-- `j.contains(key) ? some j[key] : none` on an object; none for non-objects. -/
def Json.lookup (j : Json) (key : String) : Option Json :=
  match j with
  | .obj fs => (fs.find? fun kv => kv.1 == key).map fun kv => kv.2
  | _ => none

/-- The `id` field of an event object when present and a string
(`event.contains("id") && event["id"].is_string()` in `is_duplicate_event`). -/
def lookupId (j : Json) : Option String :=
  match j.lookup "id" with
  | some (.str v) => some v
  | _ => none

/-- `EventTracker::reset`: empty the set of seen event ids. -/
def EventTracker.reset (_event_ids : List String) : List String := []

/-- `EventTracker::add_and_check`: `event_ids.insert(event_id).second` —
true iff the id was newly inserted, together with the updated set. -/
def EventTracker.add_and_check (event_ids : List String) (event_id : String) :
    List String × Bool :=
  if event_id ∈ event_ids then (event_ids, false) else (event_id :: event_ids, true)

/-- `Cassette::is_duplicate_event`: for an EVENT tuple of size ≥ 3 whose third
element is an object with a string `id`, insert the id and report true when it
was already present; in every other case leave the tracker alone and report
false. Returns (updated tracker, is-duplicate). -/
def Cassette.is_duplicate_event (tracker : List String) (parsed : Json) :
    List String × Bool :=
  if (parsed.elem 0).eqStr "EVENT" ∧ 3 ≤ parsed.size ∧ (parsed.elem 2).isObject then
    match lookupId (parsed.elem 2) with
    | some event_id =>
      let r := EventTracker.add_and_check tracker event_id
      if r.2 then (r.1, false) else (r.1, true)
    | none => (tracker, false)
  else (tracker, false)

/-- The dedup key a returned message carries: the string `id` of an EVENT
tuple whose third element is an object (exactly the shape
`is_duplicate_event` records). -/
def eventIdOf (j : Json) : Option String :=
  if (j.elem 0).eqStr "EVENT" ∧ (j.elem 2).isObject then lookupId (j.elem 2) else none

/-- One iteration of the newline-separated loop in `Cassette::process_messages`:
parse the line, require an array of size ≥ 2 with a string tag in
{NOTICE, EVENT, EOSE}, dedup EVENT tuples of size ≥ 3, and either keep the
line verbatim (`some message`) or drop it (`none`). -/
def Cassette.processLine (parse : String → Option Json) (tracker : List String)
    (message : String) : List String × Option String :=
  match parse message with
  | none => (tracker, none)
  | some parsed =>
    if parsed.isArray ∧ 2 ≤ parsed.size then
      match parsed.elem 0 with
      | .str msg_type =>
        if msg_type ≠ "NOTICE" ∧ msg_type ≠ "EVENT" ∧ msg_type ≠ "EOSE" then (tracker, none)
        else if msg_type = "EVENT" ∧ 3 ≤ parsed.size then
          let r := Cassette.is_duplicate_event tracker parsed
          if r.2 then (r.1, none) else (r.1, some message)
        else (tracker, some message)
      | _ => (tracker, none)
    else (tracker, none)

/-- The whole newline-separated loop, threading the tracker left to right and
keeping surviving lines in order. -/
def Cassette.processLines (parse : String → Option Json) :
    List String → List String → List String × List String
  | tracker, [] => (tracker, [])
  | tracker, m :: rest =>
    let r := Cassette.processLine parse tracker m
    let rr := Cassette.processLines parse r.1 rest
    match r.2 with
    | some kept => (rr.1, kept :: rr.2)
    | none => rr

/-- Split on newline characters, as `std::getline` does. -/
def splitOnNl : List Char → List Char → List (List Char)
  | acc, [] => [acc.reverse]
  | acc, c :: rest =>
    if c = '\n' then acc.reverse :: splitOnNl [] rest else splitOnNl (c :: acc) rest

/-- The non-empty lines of a raw reply, in order (`getline` plus the
`if (message.empty()) continue;` skip). -/
def linesOf (s : String) : List String :=
  ((splitOnNl [] s.toList).map fun cs => String.mk cs).filter fun l => l ≠ ""

/-- `Cassette::process_messages`: a reply containing a newline goes through the
line loop; a single reply is passed through verbatim unless it is an EVENT
array of size ≥ 3, which is deduplicated (dropped entirely when duplicate).
Returns (updated tracker, filtered messages). -/
def Cassette.process_messages (parse : String → Option Json) (tracker : List String)
    (result : String) : List String × List String :=
  if result.toList.contains '\n' then
    Cassette.processLines parse tracker (linesOf result)
  else
    match parse result with
    | some parsed =>
      if parsed.isArray ∧ (parsed.elem 0).eqStr "EVENT" ∧ 3 ≤ parsed.size then
        let r := Cassette.is_duplicate_event tracker parsed
        if r.2 then (r.1, []) else (r.1, [result])
      else (tracker, [result])
    | none => (tracker, [result])

/-- The REQ check at the head of `Cassette::send`: best-effort parse of the
outgoing message; when it is an array of size ≥ 2 whose first element is the
string "REQ" the tracker is reset, every other case (including a parse
failure, a non-string tag — `get<std::string>` throws into the swallowing
catch — and the CLOSE branch) leaves it unchanged. -/
def Cassette.req_reset (parse : String → Option Json) (tracker : List String)
    (message : String) : List String :=
  match parse message with
  | some msg_data =>
    if msg_data.isArray ∧ 2 ≤ msg_data.size then
      match msg_data.elem 0 with
      | .str msg_type => if msg_type = "REQ" then EventTracker.reset tracker else tracker
      | _ => tracker
    else tracker
  | none => tracker

/-- The observable outcome of one guest `send` call, after the REQ check:
the input-buffer allocation failed (`write_string` throws), the call produced
no i32 result, it produced the null pointer, or a non-null pointer whose
memory read decoded to `s`. -/
inductive SendOutcome where
  | allocFail : SendOutcome
  | noResult : SendOutcome
  | nullPtr : SendOutcome
  | reply (s : String) : SendOutcome

/-- The synthesized notice for a call with no i32 result. -/
def noticeSendFailed : String := "[\"NOTICE\", \"send() failed\"]"

/-- The synthesized notice for a null result pointer. -/
def noticeNullPointer : String := "[\"NOTICE\", \"send() returned null pointer\"]"

/-- The tail of `Cassette::send`: empty list → empty string, one message →
that message, otherwise the messages joined with newlines. -/
def joinMsgs : List String → String
  | [] => ""
  | [m] => m
  | ms => String.intercalate "\n" ms

/-- `Cassette::send` up to the final join: the updated tracker and the list
of messages delivered to the caller (a synthesized notice counts as one
message; an allocation failure delivers none — the exception propagates). -/
def Cassette.sendStep (parse : String → Option Json) (tracker : List String)
    (message : String) (outcome : SendOutcome) : List String × List String :=
  let t1 := Cassette.req_reset parse tracker message
  match outcome with
  | .allocFail => (t1, [])
  | .noResult => (t1, [noticeSendFailed])
  | .nullPtr => (t1, [noticeNullPointer])
  | .reply s => Cassette.process_messages parse t1 s

/-- `Cassette::send`: REQ check, guest call, synthesized notices for the two
null-ish outcomes, message processing and join. Only the allocation failure
raises. Returns (updated tracker, returned string) on success. -/
def Cassette.send (parse : String → Option Json) (tracker : List String)
    (message : String) (outcome : SendOutcome) : Except String (List String × String) :=
  match outcome with
  | .allocFail => .error "allocation failed"
  | _ =>
    let r := Cassette.sendStep parse tracker message outcome
    .ok (r.1, joinMsgs r.2)

/-- A sequence of `send` calls on one Cassette instance: each call is the
outgoing message together with the guest's outcome for it. Returns the final
tracker and all delivered messages in order. -/
def Cassette.sendRun (parse : String → Option Json) :
    List String → List (String × SendOutcome) → List String × List String
  | tracker, [] => (tracker, [])
  | tracker, (msg, outcome) :: rest =>
    let st := Cassette.sendStep parse tracker msg outcome
    let r := Cassette.sendRun parse st.1 rest
    (r.1, st.2 ++ r.2)

/-- Does `send`'s REQ check fire for this message? -/
def isReq (parse : String → Option Json) (message : String) : Bool :=
  match parse message with
  | some j => decide (j.isArray ∧ 2 ≤ j.size ∧ (j.elem 0).eqStr "REQ")
  | none => false

/-- The dedup keys carried by a list of delivered messages. -/
def msgIds (parse : String → Option Json) (outs : List String) : List String :=
  outs.filterMap fun s => (parse s).bind eventIdOf

/-- The observable outcome of a no-argument guest export call
(`describe` / `info`). -/
inductive CallOutcome where
  | noResult : CallOutcome
  | nullPtr : CallOutcome
  | reply (s : String) : CallOutcome

/-- The constant info stub `{"supported_nips": []}`. -/
def infoStub : String := "\x7b\"supported_nips\": []\x7d"

/-- `Cassette::info`: the stub when the export is absent, yields no i32
result, or returns the null pointer; otherwise the decoded string, unchanged.
Never raises. -/
def Cassette.info : Option CallOutcome → String
  | none => infoStub
  | some .noResult => infoStub
  | some .nullPtr => infoStub
  | some (.reply s) => s

/-- The `nips[i].get<int>()` loop: all integers, or a thrown type error
(`none`). -/
def nipInts : List Json → Option (List Int)
  | [] => some []
  | .num n :: rest => (nipInts rest).map fun ns => n :: ns
  | _ => none

/-- The describe-from-info synthesis inside `Cassette::describe`'s try block:
`none` models an exception escaping to the catch. -/
def Cassette.describe_synth (info_json : Json) : Option String :=
  let description :=
    match info_json.lookup "name" with
    | some (.str n) => n
    | _ => "Cassette"
  match info_json.lookup "supported_nips" with
  | some (.arr nips) =>
    if nips.isEmpty then some description
    else
      match nipInts nips with
      | some ns =>
        some (description ++ " (supports NIPs: " ++
          String.intercalate ", " (ns.map toString) ++ ")")
      | none => none
  | _ => some description

/-- `Cassette::describe`: with the export present, a missing i32 result throws
`describe function failed` and a null pointer makes `read_string` throw
`null pointer`; with it absent, synthesize from `info()` and fall back to the
"Cassette module" stub on any exception in the try block. -/
def Cassette.describe (describe_outcome : Option CallOutcome)
    (info_outcome : Option CallOutcome) (parse : String → Option Json) :
    Except String String :=
  match describe_outcome with
  | some .noResult => .error "describe function failed"
  | some .nullPtr => .error "null pointer"
  | some (.reply desc) => .ok desc
  | none =>
    let info_str := Cassette.info info_outcome
    match parse info_str with
    | none => .ok "Cassette module"
    | some info_json =>
      match Cassette.describe_synth info_json with
      | some d => .ok d
      | none => .ok "Cassette module"

/-- The null-terminated fallback read: the bytes from `ptr` up to the first
zero byte or the end of memory. -/
def MemoryManager.nullTermRead (data : List Nat) (ptr : Nat) : List Nat :=
  (data.drop ptr).takeWhile fun b => b ≠ 0

/-- The little-endian u32 at offset `i` (out-of-range bytes read as 0 never
arise at the call site: the bounds check precedes the read). -/
def leU32At (data : List Nat) (i : Nat) : Nat :=
  data.getD i 0 + 256 * data.getD (i + 1) 0 + 65536 * data.getD (i + 2) 0 +
    16777216 * data.getD (i + 3) 0

/-- `MemoryManager::read_string`: throw on the null pointer; prefer MSGB
framing (magic `M S G B`, then an LE u32 length, then the payload) when the
magic matches within bounds and the declared payload fits; otherwise fall
back to the null-terminated read. -/
def MemoryManager.read_string (data : List Nat) (ptr : Nat) : Except String (List Nat) :=
  if ptr = 0 then .error "null pointer"
  else if ptr + 8 ≤ data.length ∧ (data.drop ptr).take 4 = [77, 83, 71, 66] then
    let length := leU32At data (ptr + 4)
    if ptr + 8 + length ≤ data.length then .ok ((data.drop (ptr + 8)).take length)
    else .ok (MemoryManager.nullTermRead data ptr)
  else .ok (MemoryManager.nullTermRead data ptr)

/-- `static_cast<int>` of a nonnegative quotient: C++ double→int truncation
toward zero, modelled on ℚ. -/
def ratTrunc (q : ℚ) : Int := Int.tdiv q.num (q.den : Int)

/-- `percentile` from `benchmark.cpp`: 0 on an empty sample, otherwise the
ascending-sorted value at the truncated index `size * p`, clamped to
`size - 1`. -/
def percentile (values : List ℚ) (p : ℚ) : ℚ :=
  if values.isEmpty then 0
  else
    let sorted := values.insertionSort (· ≤ ·)
    let index : Int := ratTrunc ((values.length : ℚ) * p)
    sorted.getD (min index ((values.length : Int) - 1)).toNat 0

/-- How `benchmark.cpp`'s `main` terminates: with an exit status, or
abnormally, through an exception no handler catches. -/
inductive CliOutcome where
  | exitCode (code : Nat) : CliOutcome
  | abort : CliOutcome
  deriving DecidableEq

/-- The benchmark CLI's argument loop: `--iterations`/`-i` consumes the next
argument and hands it to `std::stoi` when there is one; everything else is a
cassette path. `stoiOk v` stands for "`std::stoi(v)` does not throw" (the
standard library's number parse is opaque here, like `json::parse`); when it
throws, the `std::invalid_argument`/`std::out_of_range` escapes `main`
uncaught and the program terminates abnormally (`none`). -/
def collectPaths (stoiOk : String → Bool) : List String → Option (List String)
  | [] => some []
  | arg :: rest =>
    if arg = "--iterations" ∨ arg = "-i" then
      match rest with
      | [] => some []
      | v :: rest2 =>
        if stoiOk v then collectPaths stoiOk rest2
        else none
    else (collectPaths stoiOk rest).map fun ps => arg :: ps

/-- Termination of `benchmark.cpp`'s `main` over the argument list (without
the program name): exit 1 when no arguments are given; abnormal termination
when `std::stoi` throws on an `--iterations` value; exit 1 when flag parsing
completes with no path; otherwise exit 0 — a path that does not exist is
skipped with a message and a path that exists but fails to load is caught
inside `benchmark_cassette`, so neither predicate can change the status. -/
def benchmark_main (stoiOk fileExists loadable : String → Bool)
    (args : List String) : CliOutcome :=
  if args.isEmpty then .exitCode 1
  else
    match collectPaths stoiOk args with
    | none => .abort
    | some paths =>
      if paths.isEmpty then .exitCode 1
      else .exitCode 0

/-- A REQ for subscription s1: `["REQ","s1",{}]`. -/
def reqS1 : String := "[\"REQ\",\"s1\",\x7b\x7d]"

/-- A REQ for subscription s2: `["REQ","s2",{}]`. -/
def reqS2 : String := "[\"REQ\",\"s2\",\x7b\x7d]"

/-- A degenerate one-element REQ array: `["REQ"]`. -/
def reqBare : String := "[\"REQ\"]"

/-- An EVENT with id a: `["EVENT","s1",{"id":"a"}]`. -/
def evA : String := "[\"EVENT\",\"s1\",\x7b\"id\":\"a\"\x7d]"

/-- An EVENT with id b: `["EVENT","s1",{"id":"b"}]`. -/
def evB : String := "[\"EVENT\",\"s1\",\x7b\"id\":\"b\"\x7d]"

/-- A NOTICE: `["NOTICE","ok"]`. -/
def noticeOk : String := "[\"NOTICE\",\"ok\"]"

/-- An EOSE: `["EOSE","s1"]`. -/
def eoseS1 : String := "[\"EOSE\",\"s1\"]"

/-- An array with an unknown tag: `["BOGUS","x"]`. -/
def bogusMsg : String := "[\"BOGUS\",\"x\"]"

/-- A concrete JSON parse table for the protocol strings of the scenarios;
every string maps to exactly its JSON parse, everything else (e.g. `FOO`)
fails to parse. -/
def parse0 (s : String) : Option Json :=
  if s = reqS1 then some (.arr [.str "REQ", .str "s1", .obj []])
  else if s = reqS2 then some (.arr [.str "REQ", .str "s2", .obj []])
  else if s = reqBare then some (.arr [.str "REQ"])
  else if s = evA then some (.arr [.str "EVENT", .str "s1", .obj [("id", .str "a")]])
  else if s = evB then some (.arr [.str "EVENT", .str "s1", .obj [("id", .str "b")]])
  else if s = noticeOk then some (.arr [.str "NOTICE", .str "ok"])
  else if s = eoseS1 then some (.arr [.str "EOSE", .str "s1"])
  else if s = bogusMsg then some (.arr [.str "BOGUS", .str "x"])
  else none

/-! ## Basic facts about the JSON helpers -/

theorem Json.eqStr_iff {x : Json} {t : String} : x.eqStr t = true ↔ x = .str t := by
  cases x <;> simp [Json.eqStr]

theorem Json.elem_isObject_bounds {j : Json} (h : (j.elem 2).isObject = true) :
    j.isArray = true ∧ 3 ≤ j.size := by
  cases j with
  | arr xs =>
    refine ⟨rfl, ?_⟩
    by_cases hlen : 3 ≤ xs.length
    · simpa [Json.size] using hlen
    · exfalso
      have hn : (Json.arr xs).elem 2 = Json.null := by
        show List.getD xs 2 Json.null = Json.null
        exact List.getD_eq_default _ _ (by omega)
      rw [hn] at h
      simp [Json.isObject] at h
  | null => simp [Json.elem, Json.elems, Json.isObject] at h
  | boolean b => simp [Json.elem, Json.elems, Json.isObject] at h
  | num n => simp [Json.elem, Json.elems, Json.isObject] at h
  | str s => simp [Json.elem, Json.elems, Json.isObject] at h
  | obj fs => simp [Json.elem, Json.elems, Json.isObject] at h

/-- `is_duplicate_event` characterized by the dedup key: the key is looked up
and inserted exactly when `eventIdOf` yields one. -/
theorem is_duplicate_event_eq (tracker : List String) (j : Json) :
    Cassette.is_duplicate_event tracker j =
      match eventIdOf j with
      | some id => if id ∈ tracker then (tracker, true) else (id :: tracker, false)
      | none => (tracker, false) := by
  unfold Cassette.is_duplicate_event eventIdOf
  by_cases h2 : (j.elem 2).isObject = true
  · have hb := Json.elem_isObject_bounds h2
    by_cases h0 : (j.elem 0).eqStr "EVENT" = true
    · rw [if_pos ⟨h0, hb.2, h2⟩, if_pos ⟨h0, h2⟩]
      cases hl : lookupId (j.elem 2) with
      | none => simp
      | some id =>
        simp only [EventTracker.add_and_check]
        by_cases hm : id ∈ tracker <;> simp [hm]
    · rw [if_neg (by simp [h0]), if_neg (by simp [h0])]
  · rw [if_neg (by simp [h2]), if_neg (by simp [h2])]

theorem eventIdOf_some {j : Json} {id : String} (h : eventIdOf j = some id) :
    (j.elem 0).eqStr "EVENT" = true ∧ (j.elem 2).isObject = true ∧
      lookupId (j.elem 2) = some id ∧ j.isArray = true ∧ 3 ≤ j.size := by
  unfold eventIdOf at h
  split at h
  · rename_i hc
    obtain ⟨h0, h2⟩ := hc
    have hb := Json.elem_isObject_bounds h2
    exact ⟨h0, h2, h, hb.1, hb.2⟩
  · cases h

/-- Complete case analysis of one line of the newline loop: the line is
dropped with the tracker untouched, or it is kept verbatim — in which case it
parsed as an array of size ≥ 2 with a recognized tag, and its dedup key (when
it has one) was fresh and is recorded. -/
theorem processLine_full (parse : String → Option Json) (t : List String) (s : String) :
    Cassette.processLine parse t s = (t, none) ∨
    ((∃ j tag, parse s = some j ∧ j.isArray = true ∧ 2 ≤ j.size ∧ j.elem 0 = .str tag ∧
        (tag = "NOTICE" ∨ tag = "EVENT" ∨ tag = "EOSE")) ∧
      (((parse s).bind eventIdOf = none ∧ Cassette.processLine parse t s = (t, some s)) ∨
       (∃ id, (parse s).bind eventIdOf = some id ∧ id ∉ t ∧
         Cassette.processLine parse t s = (id :: t, some s)))) := by
  cases hp : parse s with
  | none =>
    left
    simp [Cassette.processLine, hp]
  | some j =>
    by_cases hshape : j.isArray = true ∧ 2 ≤ j.size
    · cases he : j.elem 0 with
      | str tag =>
        by_cases htag : tag ≠ "NOTICE" ∧ tag ≠ "EVENT" ∧ tag ≠ "EOSE"
        · left
          simp [Cassette.processLine, hp, hshape.1, hshape.2, he, htag]
        · have hallowed : tag = "NOTICE" ∨ tag = "EVENT" ∨ tag = "EOSE" := by tauto
          have hsh : ∃ j' tag', some j = some j' ∧ j'.isArray = true ∧ 2 ≤ j'.size ∧
              j'.elem 0 = .str tag' ∧
              (tag' = "NOTICE" ∨ tag' = "EVENT" ∨ tag' = "EOSE") :=
            ⟨j, tag, rfl, hshape.1, hshape.2, he, hallowed⟩
          by_cases hev : tag = "EVENT" ∧ 3 ≤ j.size
          · cases hid : eventIdOf j with
            | some id =>
              by_cases hm : id ∈ t
              · left
                simp [Cassette.processLine, hp, hshape.1, hshape.2, he, htag, hev,
                  is_duplicate_event_eq, hid, hm]
              · right
                refine ⟨hsh, Or.inr ⟨id, hid, hm, ?_⟩⟩
                simp [Cassette.processLine, hp, hshape.1, hshape.2, he, htag, hev,
                  is_duplicate_event_eq, hid, hm]
            | none =>
              right
              refine ⟨hsh, Or.inl ⟨hid, ?_⟩⟩
              simp [Cassette.processLine, hp, hshape.1, hshape.2, he, htag, hev,
                is_duplicate_event_eq, hid]
          · right
            refine ⟨hsh, Or.inl ⟨?_, ?_⟩⟩
            · show eventIdOf j = none
              cases hid : eventIdOf j with
              | none => rfl
              | some id =>
                exfalso
                obtain ⟨h0, h2, hl, harr, hsz⟩ := eventIdOf_some hid
                have hse : j.elem 0 = .str "EVENT" := Json.eqStr_iff.mp h0
                rw [he] at hse
                have htg : tag = "EVENT" := by injection hse
                exact hev ⟨htg, hsz⟩
            · simp [Cassette.processLine, hp, hshape.1, hshape.2, he, htag, hev]
      | null => left; simp [Cassette.processLine, hp, hshape.1, hshape.2, he]
      | boolean b => left; simp [Cassette.processLine, hp, hshape.1, hshape.2, he]
      | num n => left; simp [Cassette.processLine, hp, hshape.1, hshape.2, he]
      | arr xs => left; simp [Cassette.processLine, hp, hshape.1, hshape.2, he]
      | obj fs => left; simp [Cassette.processLine, hp, hshape.1, hshape.2, he]
    · left
      simp only [Cassette.processLine, hp]
      rw [if_neg hshape]

theorem processLine_dropped (parse : String → Option Json) (t : List String) (s : String)
    (h : (Cassette.processLine parse t s).2 = none) :
    Cassette.processLine parse t s = (t, none) := by
  rcases processLine_full parse t s with h1 | ⟨_, ⟨_, h2⟩ | ⟨id, _, _, h3⟩⟩
  · exact h1
  · rw [h2] at h; cases h
  · rw [h3] at h; cases h

/-- The dedup invariant of the newline loop: the tracker only grows, the dedup
keys of the kept lines are pairwise distinct, and each such key was absent
from the starting tracker and is present in the final one. -/
theorem processLines_spec (parse : String → Option Json) :
    ∀ (lines : List String) (t : List String),
      t ⊆ (Cassette.processLines parse t lines).1 ∧
      (msgIds parse (Cassette.processLines parse t lines).2).Nodup ∧
      ∀ id ∈ msgIds parse (Cassette.processLines parse t lines).2,
        id ∉ t ∧ id ∈ (Cassette.processLines parse t lines).1 := by
  intro lines
  induction lines with
  | nil => intro t; simp [Cassette.processLines, msgIds, List.Subset.refl]
  | cons m rest ih =>
    intro t
    rcases processLine_full parse t m with hdrop | ⟨hsh, hkeep⟩
    · have hval : Cassette.processLines parse t (m :: rest) =
          Cassette.processLines parse t rest := by
        simp [Cassette.processLines, hdrop]
      rw [hval]
      exact ih t
    · rcases hkeep with ⟨hnone, hkeep⟩ | ⟨id, hid, hmem, hkeep⟩
      · have hval : Cassette.processLines parse t (m :: rest) =
            ((Cassette.processLines parse t rest).1,
              m :: (Cassette.processLines parse t rest).2) := by
          simp [Cassette.processLines, hkeep]
        rw [hval]
        obtain ⟨ih1, ih2, ih3⟩ := ih t
        refine ⟨ih1, ?_, ?_⟩
        · simpa [msgIds, hnone] using ih2
        · intro id' hid'
          have hmem' : id' ∈ msgIds parse (Cassette.processLines parse t rest).2 := by
            simpa [msgIds, hnone] using hid'
          exact ih3 id' hmem'
      · have hval : Cassette.processLines parse t (m :: rest) =
            ((Cassette.processLines parse (id :: t) rest).1,
              m :: (Cassette.processLines parse (id :: t) rest).2) := by
          simp [Cassette.processLines, hkeep]
        rw [hval]
        obtain ⟨ih1, ih2, ih3⟩ := ih (id :: t)
        have hids : msgIds parse (m :: (Cassette.processLines parse (id :: t) rest).2) =
            id :: msgIds parse (Cassette.processLines parse (id :: t) rest).2 := by
          simp [msgIds, hid]
        refine ⟨fun x hx => ih1 (List.mem_cons_of_mem _ hx), ?_, ?_⟩
        · rw [hids]
          refine List.nodup_cons.mpr ⟨?_, ih2⟩
          intro hin
          exact (ih3 id hin).1 (List.mem_cons_self id t)
        · intro id' hid'
          rw [hids] at hid'
          rcases List.mem_cons.mp hid' with rfl | hid''
          · exact ⟨hmem, ih1 (List.mem_cons_self id' t)⟩
          · obtain ⟨hnot, hfin⟩ := ih3 id' hid''
            exact ⟨fun hc => hnot (List.mem_cons_of_mem _ hc), hfin⟩

/-- The dedup invariant extended to `process_messages` (both the newline loop
and the single-message branch). -/
theorem process_messages_spec (parse : String → Option Json) (t : List String)
    (result : String) :
    t ⊆ (Cassette.process_messages parse t result).1 ∧
    (msgIds parse (Cassette.process_messages parse t result).2).Nodup ∧
    ∀ id ∈ msgIds parse (Cassette.process_messages parse t result).2,
      id ∉ t ∧ id ∈ (Cassette.process_messages parse t result).1 := by
  cases hnl : result.toList.contains '\n' with
  | true =>
    have hmem : '\n' ∈ result.data := by simpa using hnl
    have hval : Cassette.process_messages parse t result =
        Cassette.processLines parse t (linesOf result) := by
      simp [Cassette.process_messages, hmem]
    rw [hval]
    exact processLines_spec parse (linesOf result) t
  | false =>
    have hmem : '\n' ∉ result.data := by simpa using hnl
    cases hp : parse result with
    | none =>
      have hval : Cassette.process_messages parse t result = (t, [result]) := by
        simp [Cassette.process_messages, hmem, hp]
      rw [hval]
      refine ⟨List.Subset.refl t, ?_, ?_⟩
      · simp [msgIds, hp]
      · intro id hid
        simp [msgIds, hp] at hid
    | some j =>
      by_cases hcond : j.isArray = true ∧ (j.elem 0).eqStr "EVENT" = true ∧ 3 ≤ j.size
      · cases hid : eventIdOf j with
        | some id =>
          by_cases hm : id ∈ t
          · have hval : Cassette.process_messages parse t result = (t, []) := by
              simp [Cassette.process_messages, hmem, hp, hcond.1, hcond.2.1, hcond.2.2,
                is_duplicate_event_eq, hid, hm]
            rw [hval]
            exact ⟨List.Subset.refl t, by simp [msgIds], by simp [msgIds]⟩
          · have hval : Cassette.process_messages parse t result = (id :: t, [result]) := by
              simp [Cassette.process_messages, hmem, hp, hcond.1, hcond.2.1, hcond.2.2,
                is_duplicate_event_eq, hid, hm]
            rw [hval]
            refine ⟨List.subset_cons_self id t, ?_, ?_⟩
            · simp [msgIds, hp, hid]
            · intro id' hid'
              have hii : id' = id := by simpa [msgIds, hp, hid] using hid'
              subst hii
              exact ⟨hm, List.mem_cons_self _ _⟩
        | none =>
          have hval : Cassette.process_messages parse t result = (t, [result]) := by
            simp [Cassette.process_messages, hmem, hp, hcond.1, hcond.2.1, hcond.2.2,
              is_duplicate_event_eq, hid]
          rw [hval]
          refine ⟨List.Subset.refl t, ?_, ?_⟩
          · simp [msgIds, hp, hid]
          · intro id' hid'
            simp [msgIds, hp, hid] at hid'
      · have hid : eventIdOf j = none := by
          cases hid : eventIdOf j with
          | none => rfl
          | some id =>
            obtain ⟨h0, h2, hl, harr, hsz⟩ := eventIdOf_some hid
            exact absurd ⟨harr, h0, hsz⟩ hcond
        have hval : Cassette.process_messages parse t result = (t, [result]) := by
          simp [Cassette.process_messages, hmem, hp, hcond]
        rw [hval]
        refine ⟨List.Subset.refl t, ?_, ?_⟩
        · simp [msgIds, hp, hid]
        · intro id' hid'
          simp [msgIds, hp, hid] at hid'

theorem req_reset_isReq (parse : String → Option Json) (t : List String) (msg : String)
    (h : isReq parse msg = true) : Cassette.req_reset parse t msg = [] := by
  unfold isReq at h
  cases hp : parse msg with
  | none => rw [hp] at h; cases h
  | some j =>
    rw [hp] at h
    obtain ⟨harr, hsz, h0⟩ := of_decide_eq_true h
    have h0' : j.elem 0 = .str "REQ" := Json.eqStr_iff.mp h0
    simp [Cassette.req_reset, hp, harr, hsz, h0', EventTracker.reset]

theorem req_reset_not_isReq (parse : String → Option Json) (t : List String) (msg : String)
    (h : isReq parse msg = false) : Cassette.req_reset parse t msg = t := by
  unfold isReq at h
  cases hp : parse msg with
  | none => simp [Cassette.req_reset, hp]
  | some j =>
    rw [hp] at h
    have hc : ¬(j.isArray = true ∧ 2 ≤ j.size ∧ (j.elem 0).eqStr "REQ" = true) :=
      of_decide_eq_false h
    by_cases hshape : j.isArray = true ∧ 2 ≤ j.size
    · cases he : j.elem 0 with
      | str tag =>
        have htag : tag ≠ "REQ" := by
          intro hr
          subst hr
          exact hc ⟨hshape.1, hshape.2, by rw [he]; simp [Json.eqStr]⟩
        simp [Cassette.req_reset, hp, hshape.1, hshape.2, he, htag]
      | null => simp [Cassette.req_reset, hp, hshape.1, hshape.2, he]
      | boolean b => simp [Cassette.req_reset, hp, hshape.1, hshape.2, he]
      | num n => simp [Cassette.req_reset, hp, hshape.1, hshape.2, he]
      | arr xs => simp [Cassette.req_reset, hp, hshape.1, hshape.2, he]
      | obj fs => simp [Cassette.req_reset, hp, hshape.1, hshape.2, he]
    · simp [Cassette.req_reset, hp, hshape]

theorem msgIds_append (parse : String → Option Json) (xs ys : List String) :
    msgIds parse (xs ++ ys) = msgIds parse xs ++ msgIds parse ys := by
  simp [msgIds]

/-- The dedup invariant for one whole `send` call, relative to the tracker
after the REQ check. The two hypotheses say that the loader's own synthesized
notices do not parse as EVENT tuples (true of any JSON parse). -/
theorem sendStep_spec (parse : String → Option Json)
    (hn1 : (parse noticeSendFailed).bind eventIdOf = none)
    (hn2 : (parse noticeNullPointer).bind eventIdOf = none)
    (t : List String) (msg : String) (outcome : SendOutcome) :
    Cassette.req_reset parse t msg ⊆ (Cassette.sendStep parse t msg outcome).1 ∧
    (msgIds parse (Cassette.sendStep parse t msg outcome).2).Nodup ∧
    ∀ id ∈ msgIds parse (Cassette.sendStep parse t msg outcome).2,
      id ∉ Cassette.req_reset parse t msg ∧ id ∈ (Cassette.sendStep parse t msg outcome).1 := by
  cases outcome with
  | allocFail => simp [Cassette.sendStep, msgIds, List.Subset.refl]
  | noResult => simp [Cassette.sendStep, msgIds, hn1, List.Subset.refl]
  | nullPtr => simp [Cassette.sendStep, msgIds, hn2, List.Subset.refl]
  | reply s =>
    exact process_messages_spec parse (Cassette.req_reset parse t msg) s

/-- The dedup invariant over a whole REQ-free window of `send` calls. -/
theorem sendRun_spec (parse : String → Option Json)
    (hn1 : (parse noticeSendFailed).bind eventIdOf = none)
    (hn2 : (parse noticeNullPointer).bind eventIdOf = none) :
    ∀ (calls : List (String × SendOutcome)) (t : List String),
      (∀ c ∈ calls, isReq parse c.1 = false) →
      t ⊆ (Cassette.sendRun parse t calls).1 ∧
      (msgIds parse (Cassette.sendRun parse t calls).2).Nodup ∧
      ∀ id ∈ msgIds parse (Cassette.sendRun parse t calls).2,
        id ∉ t ∧ id ∈ (Cassette.sendRun parse t calls).1 := by
  intro calls
  induction calls with
  | nil => intro t _; simp [Cassette.sendRun, msgIds, List.Subset.refl]
  | cons c rest ih =>
    intro t hno
    obtain ⟨msg, outcome⟩ := c
    have hreq : isReq parse msg = false := hno (msg, outcome) (List.mem_cons_self _ _)
    have ht1 : Cassette.req_reset parse t msg = t := req_reset_not_isReq parse t msg hreq
    have hstep := sendStep_spec parse hn1 hn2 t msg outcome
    rw [ht1] at hstep
    obtain ⟨hs1, hs2, hs3⟩ := hstep
    obtain ⟨hr1, hr2, hr3⟩ := ih (Cassette.sendStep parse t msg outcome).1
      (fun c hc => hno c (List.mem_cons_of_mem _ hc))
    have hval : Cassette.sendRun parse t ((msg, outcome) :: rest) =
        ((Cassette.sendRun parse (Cassette.sendStep parse t msg outcome).1 rest).1,
          (Cassette.sendStep parse t msg outcome).2 ++
            (Cassette.sendRun parse (Cassette.sendStep parse t msg outcome).1 rest).2) := by
      simp [Cassette.sendRun]
    rw [hval]
    refine ⟨hs1.trans hr1, ?_, ?_⟩
    · rw [msgIds_append]
      refine List.Nodup.append hs2 hr2 ?_
      intro a ha hb
      exact (hr3 a hb).1 ((hs3 a ha).2)
    · intro id hid
      rw [msgIds_append] at hid
      rcases List.mem_append.mp hid with h | h
      · exact ⟨(hs3 id h).1, hr1 ((hs3 id h).2)⟩
      · exact ⟨fun hc => (hr3 id h).1 (hs1 hc), (hr3 id h).2⟩

/-- Every line kept by the newline loop parsed as an array of size ≥ 2 whose
tag is one of the three recognized server-to-client kinds. -/
theorem processLines_shape (parse : String → Option Json) :
    ∀ (lines : List String) (t : List String),
      ∀ s ∈ (Cassette.processLines parse t lines).2,
        ∃ j tag, parse s = some j ∧ j.isArray = true ∧ 2 ≤ j.size ∧
          j.elem 0 = .str tag ∧ (tag = "NOTICE" ∨ tag = "EVENT" ∨ tag = "EOSE") := by
  intro lines
  induction lines with
  | nil => intro t s hs; simp [Cassette.processLines] at hs
  | cons m rest ih =>
    intro t s hs
    rcases processLine_full parse t m with hdrop | ⟨hsh, hkeep⟩
    · have hval : Cassette.processLines parse t (m :: rest) =
          Cassette.processLines parse t rest := by
        simp [Cassette.processLines, hdrop]
      rw [hval] at hs
      exact ih t s hs
    · rcases hkeep with ⟨_, hkeep⟩ | ⟨id, _, _, hkeep⟩
      · have hval : Cassette.processLines parse t (m :: rest) =
            ((Cassette.processLines parse t rest).1,
              m :: (Cassette.processLines parse t rest).2) := by
          simp [Cassette.processLines, hkeep]
        rw [hval] at hs
        rcases List.mem_cons.mp hs with rfl | hs'
        · exact hsh
        · exact ih t s hs'
      · have hval : Cassette.processLines parse t (m :: rest) =
            ((Cassette.processLines parse (id :: t) rest).1,
              m :: (Cassette.processLines parse (id :: t) rest).2) := by
          simp [Cassette.processLines, hkeep]
        rw [hval] at hs
        rcases List.mem_cons.mp hs with rfl | hs'
        · exact hsh
        · exact ih (id :: t) s hs'

theorem processLines_all_dropped (parse : String → Option Json) :
    ∀ (lines : List String) (t : List String),
      (∀ line ∈ lines, (Cassette.processLine parse t line).2 = none) →
      Cassette.processLines parse t lines = (t, []) := by
  intro lines
  induction lines with
  | nil => intro t _; simp [Cassette.processLines]
  | cons m rest ih =>
    intro t h
    have hm := processLine_dropped parse t m (h m (List.mem_cons_self _ _))
    have hrest := ih t (fun l hl => h l (List.mem_cons_of_mem _ hl))
    simp [Cassette.processLines, hm, hrest]

theorem int_tdiv_eq_ediv {a b : Int} (ha : 0 ≤ a) (hb : 0 ≤ b) : a.tdiv b = a / b := by
  cases a with
  | ofNat m =>
    cases b with
    | ofNat n => rfl
    | negSucc n => exact absurd hb (not_le.mpr (Int.negSucc_lt_zero n))
  | negSucc m => exact absurd ha (not_le.mpr (Int.negSucc_lt_zero m))

theorem ratTrunc_eq_floor {q : ℚ} (h : 0 ≤ q) : ratTrunc q = ⌊q⌋ := by
  have hn : 0 ≤ q.num := Rat.num_nonneg.mpr h
  have hd : (0:Int) ≤ (q.den : Int) := Int.natCast_nonneg q.den
  rw [Rat.floor_def]
  exact int_tdiv_eq_ediv hn hd

/-! ## Claim theorems -/

/-- C1 (amended): for a guest reply containing a newline, every returned line
parsed as a JSON array of size ≥ 2 whose tag is one of EVENT, NOTICE, EOSE —
so a line with any other tag is absent; a reply without a newline is passed
through verbatim whenever it is not an EVENT array of size ≥ 3 (in particular
when it fails to parse, is not an array, or is an array with an unknown tag). -/
theorem process_messages_tag_filter (parse : String → Option Json) (t : List String)
    (result : String) :
    (result.toList.contains '\n' = true →
      ∀ s ∈ (Cassette.process_messages parse t result).2,
        ∃ j tag, parse s = some j ∧ j.isArray = true ∧ 2 ≤ j.size ∧
          j.elem 0 = .str tag ∧ (tag = "NOTICE" ∨ tag = "EVENT" ∨ tag = "EOSE")) ∧
    (result.toList.contains '\n' = false →
      (parse result = none → (Cassette.process_messages parse t result).2 = [result]) ∧
      (∀ j, parse result = some j →
        ¬(j.isArray = true ∧ (j.elem 0).eqStr "EVENT" = true ∧ 3 ≤ j.size) →
        (Cassette.process_messages parse t result).2 = [result])) := by
  constructor
  · intro hnl
    have hmem : '\n' ∈ result.data := by simpa using hnl
    have hval : Cassette.process_messages parse t result =
        Cassette.processLines parse t (linesOf result) := by
      simp [Cassette.process_messages, hmem]
    rw [hval]
    exact processLines_shape parse (linesOf result) t
  · intro hnl
    have hmem : '\n' ∉ result.data := by simpa using hnl
    constructor
    · intro hp
      simp [Cassette.process_messages, hmem, hp]
    · intro j hp hcond
      simp [Cassette.process_messages, hmem, hp, hcond]

/-- C1 counterexample: a single reply that parses as the JSON array
`["BOGUS","x"]` — an array with a tag outside {EVENT, NOTICE, EOSE} — is
passed through verbatim by `process_messages`, so such a line is present in
the returned list even though it is a successfully parsed JSON array. -/
theorem process_messages_bogus_passthrough :
    parse0 bogusMsg = some (.arr [.str "BOGUS", .str "x"]) ∧
    (Cassette.process_messages parse0 [] bogusMsg).2 = [bogusMsg] ∧
    ("BOGUS" ≠ "EVENT" ∧ "BOGUS" ≠ "NOTICE" ∧ "BOGUS" ≠ "EOSE") :=
  ⟨rfl, rfl, by decide⟩

/-- C1 witness: a concrete newline-separated reply (parse failure, duplicate
EVENT, unknown tag, NOTICE) keeps only lines with recognized tags, and a
concrete single non-EVENT reply is passed through verbatim. -/
theorem process_messages_tag_filter_witness :
    ((evA ++ "\n" ++ bogusMsg ++ "\n" ++ noticeOk).toList.contains '\n' = true ∧
      ∀ s ∈ (Cassette.process_messages parse0 []
          (evA ++ "\n" ++ bogusMsg ++ "\n" ++ noticeOk)).2,
        ∃ j tag, parse0 s = some j ∧ j.isArray = true ∧ 2 ≤ j.size ∧
          j.elem 0 = .str tag ∧ (tag = "NOTICE" ∨ tag = "EVENT" ∨ tag = "EOSE")) ∧
    (Cassette.process_messages parse0 [] "FOO").2 = ["FOO"] :=
  ⟨⟨by decide, (process_messages_tag_filter parse0 []
      (evA ++ "\n" ++ bogusMsg ++ "\n" ++ noticeOk)).1 (by decide)⟩,
    ((process_messages_tag_filter parse0 [] "FOO").2 (by decide)).1 rfl⟩

/-- C2: within one REQ window — a send whose message passes the REQ check,
followed by any number of sends whose messages do not — the dedup keys of all
messages delivered to the caller are pairwise distinct: no two EVENT messages
whose third element is an object with the same string id are both returned.
(The two `parse` hypotheses state that the loader's own synthesized notices
are not EVENT tuples, which holds for any JSON parse.) -/
theorem dedup_within_req_window (parse : String → Option Json) (t0 : List String)
    (reqMsg : String) (reqOutcome : SendOutcome) (calls : List (String × SendOutcome))
    (hreq : isReq parse reqMsg = true)
    (hcalls : ∀ c ∈ calls, isReq parse c.1 = false)
    (hn1 : (parse noticeSendFailed).bind eventIdOf = none)
    (hn2 : (parse noticeNullPointer).bind eventIdOf = none) :
    (msgIds parse (Cassette.sendRun parse t0 ((reqMsg, reqOutcome) :: calls)).2).Nodup := by
  have ht1 : Cassette.req_reset parse t0 reqMsg = [] := req_reset_isReq parse t0 reqMsg hreq
  have hstep := sendStep_spec parse hn1 hn2 t0 reqMsg reqOutcome
  rw [ht1] at hstep
  obtain ⟨hs1, hs2, hs3⟩ := hstep
  obtain ⟨hr1, hr2, hr3⟩ := sendRun_spec parse hn1 hn2 calls
    (Cassette.sendStep parse t0 reqMsg reqOutcome).1 hcalls
  have hval : Cassette.sendRun parse t0 ((reqMsg, reqOutcome) :: calls) =
      ((Cassette.sendRun parse (Cassette.sendStep parse t0 reqMsg reqOutcome).1 calls).1,
        (Cassette.sendStep parse t0 reqMsg reqOutcome).2 ++
          (Cassette.sendRun parse (Cassette.sendStep parse t0 reqMsg reqOutcome).1 calls).2) := by
    simp [Cassette.sendRun]
  rw [hval, msgIds_append]
  refine List.Nodup.append hs2 hr2 ?_
  intro a ha hb
  exact (hr3 a hb).1 ((hs3 a ha).2)

/-- C2 witness: a REQ whose reply repeats the same event id and a follow-up
query replying with that id again deliver pairwise-distinct dedup keys. -/
theorem dedup_within_req_window_witness :
    isReq parse0 reqS1 = true ∧
    (∀ c ∈ [("FOO", SendOutcome.reply evA)], isReq parse0 c.1 = false) ∧
    (parse0 noticeSendFailed).bind eventIdOf = none ∧
    (parse0 noticeNullPointer).bind eventIdOf = none ∧
    (msgIds parse0 (Cassette.sendRun parse0 []
      [(reqS1, SendOutcome.reply (evA ++ "\n" ++ evA ++ "\n" ++ eoseS1)),
        ("FOO", SendOutcome.reply evA)]).2).Nodup :=
  ⟨by decide, by decide, by decide, by decide,
    dedup_within_req_window parse0 []
      reqS1 (SendOutcome.reply (evA ++ "\n" ++ evA ++ "\n" ++ eoseS1))
      [("FOO", SendOutcome.reply evA)] (by decide) (by decide) (by decide) (by decide)⟩

/-- C3 (amended): a send whose message parses as a JSON array of size ≥ 2
whose first element is the string REQ empties the EventTracker before the
guest is invoked, and a message that fails to parse leaves it unchanged; after
a reset, an event id already emitted under an earlier REQ is returned again
under the new REQ (concrete two-REQ run delivering the same event twice). -/
theorem req_reset_spec (parse : String → Option Json) (t : List String) (msg : String) :
    (isReq parse msg = true → Cassette.req_reset parse t msg = []) ∧
    (parse msg = none → Cassette.req_reset parse t msg = t) ∧
    (Cassette.sendRun parse0 []
      [(reqS1, SendOutcome.reply evA), (reqS2, SendOutcome.reply evA)]).2 = [evA, evA] := by
  refine ⟨req_reset_isReq parse t msg, ?_, rfl⟩
  intro hp
  simp [Cassette.req_reset, hp]

/-- C3 counterexample: the one-element array `["REQ"]` parses as a JSON array
whose first element is the string REQ, yet the tracker is not emptied — the
code additionally requires at least two elements. -/
theorem req_reset_bare_req_counterexample :
    parse0 reqBare = some (.arr [.str "REQ"]) ∧
    Cassette.req_reset parse0 ["a"] reqBare = ["a"] ∧
    (["a"] : List String) ≠ [] :=
  ⟨rfl, rfl, by decide⟩

/-- C3 witness: the REQ `["REQ","s1",{}]` empties a non-empty tracker, and an
unparseable message leaves it unchanged. -/
theorem req_reset_spec_witness :
    isReq parse0 reqS1 = true ∧
    Cassette.req_reset parse0 ["a"] reqS1 = [] ∧
    parse0 "FOO" = none ∧
    Cassette.req_reset parse0 ["a"] "FOO" = ["a"] :=
  ⟨by decide, (req_reset_spec parse0 ["a"] reqS1).1 (by decide), rfl,
    (req_reset_spec parse0 ["a"] "FOO").2.1 rfl⟩

/-- C4: contrary to the claim (and §4.3/§7 of the spec), `describe()` raises
when the describe export is present and misbehaves: a call with no i32 result
throws `describe function failed`, and a null result pointer makes
`read_string` throw `null pointer`; only with the export absent does it
return a synthesized string or the `Cassette module` stub without raising. -/
theorem describe_raises_on_null :
    Cassette.describe (some CallOutcome.nullPtr) none (fun _ => none) =
      .error "null pointer" ∧
    Cassette.describe (some CallOutcome.noResult) none (fun _ => none) =
      .error "describe function failed" ∧
    Cassette.describe none none (fun _ => none) = .ok "Cassette module" :=
  ⟨rfl, rfl, rfl⟩

/-- C5 (amended): `info()` returns the constant stub `{"supported_nips": []}`
exactly when the export is absent, yields no i32 result, or returns a null
pointer; the string decoded from a nonzero pointer is returned unchanged —
including the empty string, which is not replaced by the stub. -/
theorem info_stub_cases :
    Cassette.info none = infoStub ∧
    Cassette.info (some CallOutcome.noResult) = infoStub ∧
    Cassette.info (some CallOutcome.nullPtr) = infoStub ∧
    ∀ s : String, Cassette.info (some (CallOutcome.reply s)) = s :=
  ⟨rfl, rfl, rfl, fun _ => rfl⟩

/-- C5 counterexample: an info export whose result decodes to the empty
string makes `info()` return the empty string, not the stub the claim
requires. -/
theorem info_empty_reply_counterexample :
    Cassette.info (some (CallOutcome.reply "")) = "" ∧ "" ≠ infoStub :=
  ⟨rfl, by decide⟩

/-- C6: a guest send returning the null pointer yields exactly
`["NOTICE", "send() returned null pointer"]`, and a call with no i32 result
yields exactly `["NOTICE", "send() failed"]`; both are returned as ordinary
results — no error is raised. -/
theorem send_notice_on_null (parse : String → Option Json) (t : List String)
    (msg : String) :
    Cassette.send parse t msg SendOutcome.nullPtr =
      .ok (Cassette.req_reset parse t msg, "[\"NOTICE\", \"send() returned null pointer\"]") ∧
    Cassette.send parse t msg SendOutcome.noResult =
      .ok (Cassette.req_reset parse t msg, "[\"NOTICE\", \"send() failed\"]") :=
  ⟨rfl, rfl⟩

/-- C7: `read_string` fails on the null pointer; for a nonzero pointer, when
the four bytes at it are `M S G B` and the LE u32 length at `ptr+4` fits
(`ptr + 8 + length ≤ memory size`) it returns exactly the payload bytes at
`ptr+8`; in every other case — including a matching magic whose declared
length exceeds the bounds — it returns the bytes up to the first zero or the
end of memory, so a pointer at the very end of memory reads as empty. -/
theorem read_string_spec (data : List Nat) (ptr : Nat) :
    (MemoryManager.read_string data 0 = .error "null pointer") ∧
    (ptr ≠ 0 → (data.drop ptr).take 4 = [77, 83, 71, 66] →
      ptr + 8 + leU32At data (ptr + 4) ≤ data.length →
      MemoryManager.read_string data ptr =
        .ok ((data.drop (ptr + 8)).take (leU32At data (ptr + 4)))) ∧
    (ptr ≠ 0 → ¬((data.drop ptr).take 4 = [77, 83, 71, 66] ∧
        ptr + 8 + leU32At data (ptr + 4) ≤ data.length) →
      MemoryManager.read_string data ptr = .ok (MemoryManager.nullTermRead data ptr)) ∧
    (data.length ≠ 0 → MemoryManager.read_string data data.length = .ok []) := by
  refine ⟨by simp [MemoryManager.read_string], ?_, ?_, ?_⟩
  · intro hz hmagic hfits
    have h8 : ptr + 8 ≤ data.length := by omega
    unfold MemoryManager.read_string
    rw [if_neg hz, if_pos ⟨h8, hmagic⟩, if_pos hfits]
  · intro hz hnot
    unfold MemoryManager.read_string
    rw [if_neg hz]
    by_cases hm : ptr + 8 ≤ data.length ∧ (data.drop ptr).take 4 = [77, 83, 71, 66]
    · rw [if_pos hm, if_neg (fun hf => hnot ⟨hm.2, hf⟩)]
    · rw [if_neg hm]
  · intro hz
    unfold MemoryManager.read_string
    rw [if_neg hz, if_neg (by omega)]
    simp [MemoryManager.nullTermRead]

/-- C7 witness: the S5 scenario — MSGB framing of `hello` reads back exactly
the payload — and an end-of-memory pointer reads as empty. -/
theorem read_string_spec_witness :
    MemoryManager.read_string [0, 77, 83, 71, 66, 5, 0, 0, 0, 104, 101, 108, 108, 111] 1 =
      .ok [104, 101, 108, 108, 111] ∧
    MemoryManager.read_string [104, 105, 0, 9] 4 = .ok [] :=
  ⟨(read_string_spec [0, 77, 83, 71, 66, 5, 0, 0, 0, 104, 101, 108, 108, 111] 1).2.1
      (by decide) (by decide) (by decide),
    (read_string_spec [104, 105, 0, 9] 4).2.2.2 (by decide)⟩

/-- C8: for a non-empty sample and probability p ≥ 0, the percentile is the
value of the ascending sort at index `min(floor(p*n), n-1)` (the sort being a
sorted permutation of the sample), and the percentile of an empty sample
is 0. -/
theorem percentile_spec (values : List ℚ) (p : ℚ) (hp : 0 ≤ p) (hne : values ≠ []) :
    percentile values p =
      (values.insertionSort (· ≤ ·)).getD
        (min ⌊p * (values.length : ℚ)⌋ ((values.length : Int) - 1)).toNat 0 ∧
    (values.insertionSort (· ≤ ·)).Sorted (· ≤ ·) ∧
    (values.insertionSort (· ≤ ·)).Perm values ∧
    percentile [] p = 0 := by
  refine ⟨?_, List.sorted_insertionSort _ _, List.perm_insertionSort _ _,
    by simp [percentile]⟩
  have hq : (0:ℚ) ≤ (values.length : ℚ) * p := by positivity
  have htd : ratTrunc ((values.length : ℚ) * p) = ⌊(values.length : ℚ) * p⌋ :=
    ratTrunc_eq_floor hq
  unfold percentile
  rw [if_neg (by simpa using hne), htd, mul_comm ((values.length : ℚ)) p]

/-- C8 witness: the median of the sample {3, 1, 2}. -/
theorem percentile_spec_witness :
    (0:ℚ) ≤ 1/2 ∧ (([3, 1, 2] : List ℚ) ≠ []) ∧
    percentile [3, 1, 2] (1/2) =
      (([3, 1, 2] : List ℚ).insertionSort (· ≤ ·)).getD
        (min ⌊(1/2 : ℚ) * ((([3, 1, 2] : List ℚ).length : ℚ))⌋
          ((([3, 1, 2] : List ℚ).length : Int) - 1)).toNat 0 :=
  ⟨by norm_num, by simp,
    (percentile_spec [3, 1, 2] (1/2) (by norm_num) (by simp)).1⟩

/-- C9 (amended): the benchmark CLI exits 1 exactly when it receives no
arguments or when flag parsing completes leaving no cassette path; it
terminates abnormally — an uncaught `std::invalid_argument`/`std::out_of_range`
— when an `--iterations` value cannot be parsed by `std::stoi`; and whenever
flag parsing completes with at least one path it exits 0, regardless of
whether any given path names an existing or loadable cassette file (a missing
file is skipped and a load failure is caught inside `benchmark_cassette`). -/
theorem benchmark_exit_spec (stoiOk fileExists loadable : String → Bool)
    (args : List String) :
    (benchmark_main stoiOk fileExists loadable [] = .exitCode 1) ∧
    (collectPaths stoiOk args = some [] → args ≠ [] →
      benchmark_main stoiOk fileExists loadable args = .exitCode 1) ∧
    (collectPaths stoiOk args = none →
      benchmark_main stoiOk fileExists loadable args = .abort) ∧
    (∀ paths, collectPaths stoiOk args = some paths → paths ≠ [] →
      benchmark_main stoiOk fileExists loadable args = .exitCode 0) := by
  refine ⟨rfl, ?_, ?_, ?_⟩
  · intro hcp hne
    unfold benchmark_main
    rw [if_neg (by simpa using hne), hcp]
    rfl
  · intro hcp
    have hne : args ≠ [] := by
      intro h
      subst h
      exact Option.noConfusion hcp
    unfold benchmark_main
    rw [if_neg (by simpa using hne), hcp]
  · intro paths hcp hne
    have hargs : args ≠ [] := by
      intro h
      subst h
      have h2 : some ([] : List String) = some paths := hcp
      injection h2 with h3
      exact hne h3.symm
    unfold benchmark_main
    rw [if_neg (by simpa using hargs), hcp]
    exact if_neg (by simpa using hne)

/-- C9 counterexample: invoked with one path that neither exists nor loads as
a cassette — so no cassette is resolvable — the CLI exits 0, not 1. -/
theorem benchmark_exit_counterexample :
    benchmark_main (fun _ => true) (fun _ => false) (fun _ => false) ["missing.wasm"] =
      CliOutcome.exitCode 0 ∧
    CliOutcome.exitCode 0 ≠ CliOutcome.exitCode 1 :=
  ⟨rfl, by decide⟩

/-- C9 witness: a non-numeric `--iterations` value aborts the program; the
iteration flag consuming the only other argument exits 1; one path exits 0. -/
theorem benchmark_exit_spec_witness :
    collectPaths (fun v => v == "5") ["--iterations", "foo", "a.wasm"] = none ∧
    benchmark_main (fun v => v == "5") (fun _ => true) (fun _ => true)
      ["--iterations", "foo", "a.wasm"] = CliOutcome.abort ∧
    collectPaths (fun v => v == "5") ["-i", "5"] = some [] ∧
    (["-i", "5"] : List String) ≠ [] ∧
    benchmark_main (fun v => v == "5") (fun _ => true) (fun _ => true) ["-i", "5"] =
      CliOutcome.exitCode 1 ∧
    collectPaths (fun v => v == "5") ["a.wasm"] = some ["a.wasm"] ∧
    benchmark_main (fun v => v == "5") (fun _ => true) (fun _ => true) ["a.wasm"] =
      CliOutcome.exitCode 0 :=
  ⟨rfl,
    (benchmark_exit_spec (fun v => v == "5") (fun _ => true) (fun _ => true)
      ["--iterations", "foo", "a.wasm"]).2.2.1 rfl,
    rfl, by decide,
    (benchmark_exit_spec (fun v => v == "5") (fun _ => true) (fun _ => true)
      ["-i", "5"]).2.1 rfl (by decide),
    rfl,
    (benchmark_exit_spec (fun v => v == "5") (fun _ => true) (fun _ => true)
      ["a.wasm"]).2.2.2 ["a.wasm"] rfl (by decide)⟩

/-- C10: when every candidate message of the guest reply is dropped — every
line of a newline-separated reply fails to parse, has a bad shape or unknown
tag, or is a duplicate EVENT, or the single reply is a duplicate EVENT —
`Cassette::send` returns the empty string as an ordinary result: no NOTICE is
synthesized and no error is raised. -/
theorem send_all_dropped_empty (parse : String → Option Json) (t : List String)
    (msg : String) (result : String) :
    (result.toList.contains '\n' = true →
      (∀ line ∈ linesOf result,
        (Cassette.processLine parse (Cassette.req_reset parse t msg) line).2 = none) →
      Cassette.send parse t msg (SendOutcome.reply result) =
        .ok (Cassette.req_reset parse t msg, "")) ∧
    (result.toList.contains '\n' = false →
      ∀ j id, parse result = some j →
        j.isArray = true → (j.elem 0).eqStr "EVENT" = true → 3 ≤ j.size →
        eventIdOf j = some id → id ∈ Cassette.req_reset parse t msg →
        Cassette.send parse t msg (SendOutcome.reply result) =
          .ok (Cassette.req_reset parse t msg, "")) := by
  constructor
  · intro hnl hdrop
    have hmem : '\n' ∈ result.data := by simpa using hnl
    have hall := processLines_all_dropped parse (linesOf result)
      (Cassette.req_reset parse t msg) hdrop
    simp [Cassette.send, Cassette.sendStep, Cassette.process_messages, hmem, hall, joinMsgs]
  · intro hnl j id hp harr h0 hsz hid hm
    have hmem : '\n' ∉ result.data := by simpa using hnl
    have hval : Cassette.process_messages parse (Cassette.req_reset parse t msg) result =
        (Cassette.req_reset parse t msg, []) := by
      simp [Cassette.process_messages, hmem, hp, harr, h0, hsz,
        is_duplicate_event_eq, hid, hm]
    simp [Cassette.send, Cassette.sendStep, hval, joinMsgs]

/-- C10 witness: a reply whose three lines are an unparseable line, an
unknown-tag line, and a duplicate EVENT makes send return the empty string. -/
theorem send_all_dropped_empty_witness :
    (("FOO\n" ++ bogusMsg ++ "\n" ++ evA).toList.contains '\n' = true) ∧
    (∀ line ∈ linesOf ("FOO\n" ++ bogusMsg ++ "\n" ++ evA),
      (Cassette.processLine parse0 (Cassette.req_reset parse0 ["a"] "x") line).2 = none) ∧
    Cassette.send parse0 ["a"] "x" (SendOutcome.reply ("FOO\n" ++ bogusMsg ++ "\n" ++ evA)) =
      .ok (["a"], "") :=
  ⟨by decide, by decide,
    (send_all_dropped_empty parse0 ["a"] "x" ("FOO\n" ++ bogusMsg ++ "\n" ++ evA)).1
      (by decide) (by decide)⟩
